import Mathlib

set_option maxRecDepth 20000

/-!
Verification development for the Trisonica data logger (Linux).

The definitions below are a shallow embedding of the Python sources
`datalogger.py` and `DataVis.py`.  Python floats are modelled as exact
rationals (ℚ); the result of a Python `float(value_str)` coercion is
modelled as `Option ℚ` (`none` = `ValueError`).  Python dicts (which are
insertion-ordered and updated in place) are modelled as association lists
with an insert-or-update operation that preserves insertion order.
Wall-clock instants (`datetime.datetime.now()`) are modelled as an
abstract `Nat` tick supplied by the caller.
-/

namespace Trisonica

/-! ## Python dict model (insertion-ordered association list) -/

/-- Lookup in an insertion-ordered dict. -/
def getEntry {α : Type} (d : List (String × α)) (k : String) : Option α :=
  match d with
  | [] => none
  | (k', v) :: rest => if k' = k then some v else getEntry rest k

/-- `d[k] = v`: update in place if present (keeping its slot), else append. -/
def setEntry {α : Type} (d : List (String × α)) (k : String) (v : α) :
    List (String × α) :=
  match d with
  | [] => [(k, v)]
  | (k', v') :: rest =>
      if k' = k then (k, v) :: rest else (k', v') :: setEntry rest k v

/-! ## Line decoder: `parse_data_line` (datalogger.py lines 248-273)

String primitives are modelled over `List Char` so that everything reduces
in the kernel.  `wordsAux` is Python's `str.split()` (split on whitespace
runs, dropping empties, which also subsumes the preceding `.strip()`);
`splitCommaAux` is `str.split(',')`; `pyStrip` is `str.strip()`;
`splitFirstSpace` is `str.split(' ', 1)` for a string containing a space. -/

/-- Python `str.split()` with no arguments: maximal non-whitespace runs. -/
def wordsAux : List Char → List Char → List (List Char)
  | [], acc => if acc = [] then [] else [acc.reverse]
  | c :: cs, acc =>
      if c.isWhitespace then
        if acc = [] then wordsAux cs [] else acc.reverse :: wordsAux cs []
      else wordsAux cs (c :: acc)

/-- Tokens of a line, as Python's `line.strip().split()` produces them. -/
def pySplit (line : String) : List String :=
  (wordsAux line.toList []).map (fun w => String.mk w)

/-- Python `str.strip()`: drop leading and trailing whitespace. -/
def pyStrip (cs : List Char) : List Char :=
  ((cs.dropWhile Char.isWhitespace).reverse.dropWhile Char.isWhitespace).reverse

/-- Python `str.split(',')`: split on every comma, keeping empty pieces. -/
def splitCommaAux : List Char → List Char → List (List Char)
  | [], acc => [acc.reverse]
  | c :: cs, acc =>
      if c = ',' then acc.reverse :: splitCommaAux cs []
      else splitCommaAux cs (c :: acc)

/-- Python `str.split(' ', 1)` on a string containing a space:
the part before the first space and the part after it. -/
def splitFirstSpace : List Char → List Char × List Char
  | [] => ([], [])
  | c :: cs =>
      if c = ' ' then ([], cs)
      else
        let p := splitFirstSpace cs
        (c :: p.1, p.2)

/-- Consume a flat token list in (key, value) pairs by position;
a trailing unpaired token is dropped (the loop
`for i in range(0, len(parts)-1, 2)` never reads past the last pair). -/
def pairUp : List String → List (String × String)
  | k :: v :: rest => (k, v) :: pairUp rest
  | _ => []

/-- Build a Python dict from a pair list (later duplicate keys overwrite). -/
def dictOfPairs (ps : List (String × String)) : List (String × String) :=
  ps.foldl (fun d p => setEntry d p.1 p.2) []

/-- One comma-separated piece of the comma branch of `parse_data_line`:
strip it, and if it contains a space, split at the first space and store
`parsed[key.strip()] = value.strip()`; otherwise skip the piece. -/
def parsePairComma (d : List (String × String)) (pairCs : List Char) :
    List (String × String) :=
  let p := pyStrip pairCs
  if (' ' : Char) ∈ p then
    let kv := splitFirstSpace p
    setEntry d (String.mk (pyStrip kv.1)) (String.mk (pyStrip kv.2))
  else d

/-- `parse_data_line` (datalogger.py lines 248-273): comma-separated
"key value" pairs if the line contains a comma, else a whitespace-separated
flat token sequence consumed in pairs by position. -/
def parse_data_line (line : String) : List (String × String) :=
  if (',' : Char) ∈ line.toList then
    (splitCommaAux (pyStrip line.toList) []).foldl parsePairComma []
  else
    dictOfPairs (pairUp (pySplit line))

/-! ## Schema registry: `update_csv_columns` (datalogger.py lines 275-286) -/

/-- `update_csv_columns`: append each not-yet-known key, preserving
discovery order; existing columns are never removed or reordered. -/
def update_csv_columns (cols : List String) (keys : List String) :
    List String :=
  keys.foldl (fun cs k => if k ∈ cs then cs else cs ++ [k]) cols

/-! ## Statistics engine: `Statistics` and `calculate_statistics`
(datalogger.py lines 54-62 and 302-325)

The source stores `std_dev = variance ** 0.5` as a float.  We track the
exact variance in the field `std_dev_sq` (so the structure stays decidable)
and expose the standard deviation itself as `Statistics.stdDev`, the real
square root of that field. -/

structure Statistics where
  min_val : ℚ := 0
  max_val : ℚ := 0
  mean_val : ℚ := 0
  current_val : ℚ := 0
  std_dev_sq : ℚ := 0
  count : Nat := 0
  values : List ℚ := []
deriving DecidableEq

/-- `deque(maxlen=100).append`: past capacity the oldest element is evicted. -/
def pushWindow (xs : List ℚ) (v : ℚ) : List ℚ :=
  if xs.length < 100 then xs ++ [v] else xs.tail ++ [v]

/-- Population variance of a list (divide by count, not count − 1). -/
def popVariance (xs : List ℚ) : ℚ :=
  (xs.map (fun x => (x - xs.sum / (xs.length : ℚ)) ^ 2)).sum / (xs.length : ℚ)

/-- `calculate_statistics` body for a single parameter's `Statistics` slot. -/
def calculate_statistics (stat : Statistics) (value : ℚ) : Statistics :=
  let count := stat.count + 1
  let values := pushWindow stat.values value
  if count = 1 then
    { stat with
      current_val := value, count := count, values := values,
      min_val := value, max_val := value, mean_val := value,
      std_dev_sq := 0 }
  else
    let min_val := min stat.min_val value
    let max_val := max stat.max_val value
    let mean_val := values.sum / (values.length : ℚ)
    let std_dev_sq :=
      if 1 < values.length then
        (values.map (fun x => (x - mean_val) ^ 2)).sum / (values.length : ℚ)
      else stat.std_dev_sq
    { stat with
      current_val := value, count := count, values := values,
      min_val := min_val, max_val := max_val, mean_val := mean_val,
      std_dev_sq := std_dev_sq }

/-- The standard deviation the source stores: `variance ** 0.5`. -/
noncomputable def Statistics.stdDev (s : Statistics) : ℝ :=
  Real.sqrt (s.std_dev_sq : ℝ)

/-- Folding a whole sequence of accepted values into one parameter's
statistics, starting from the freshly created `Statistics()` slot. -/
def statsFold (l : List ℚ) : Statistics :=
  l.foldl calculate_statistics {}

/-- The most recent at most `n` elements of a list. -/
def takeLast (n : Nat) (l : List ℚ) : List ℚ :=
  l.drop (l.length - n)

/-! ## Health classifier: `update_sensor_health`
(datalogger.py lines 557-585) and session state -/

inductive HealthStatus where
  | Unknown
  | Good
  | Error
  | Malfunction
  | Offline
deriving DecidableEq

structure SensorHealth where
  status : HealthStatus := .Unknown
  error_rate : ℚ := 0
  last_good_reading : Option Nat := none
deriving DecidableEq

/-- The mutable session state touched by `read_serial_data`:
`self.stats`, `self.data_quality['sensor_health']`,
`self.data_quality['error_count']`, `self.data_quality['total_readings']`,
`self.data_quality['last_error_time']`. -/
structure SessionState where
  stats : List (String × Statistics) := []
  sensor_health : List (String × SensorHealth) := []
  error_count : Nat := 0
  total_readings : Nat := 0
  last_error_time : Option Nat := none
deriving DecidableEq

/-- The generic sensor-error sentinel `-99.50`. -/
def errorSentinel : ℚ := -995 / 10

/-- The pressure-specific sentinel `-99.70`. -/
def offlineSentinel : ℚ := -997 / 10

/-- Python `parameter.startswith('T')` (single-character pattern). -/
def startsWithT (p : String) : Bool :=
  match p.toList with
  | [] => false
  | c :: _ => c = 'T'

/-- `update_sensor_health(parameter, value, is_error)`
(datalogger.py lines 557-585). -/
def update_sensor_health (s : SessionState) (parameter : String) (value : ℚ)
    (is_error : Bool) (now : Nat) : SessionState :=
  let sensor0 := (getEntry s.sensor_health parameter).getD {}
  let s1 :=
    if is_error then
      { s with error_count := s.error_count + 1, last_error_time := some now }
    else s
  let sensor1 :=
    if is_error then
      { sensor0 with status := HealthStatus.Error }
    else
      let sensor0 := { sensor0 with last_good_reading := some now }
      if startsWithT parameter = true ∧ (100000 : ℚ) < value then
        { sensor0 with status := HealthStatus.Malfunction }
      else if parameter = "P" ∧ value = offlineSentinel then
        { sensor0 with status := HealthStatus.Offline }
      else
        { sensor0 with status := HealthStatus.Good }
  let sensor2 :=
    if 0 < s1.total_readings then
      { sensor1 with
        error_rate := ((s1.error_count : ℚ) / (s1.total_readings : ℚ)) * 100 }
    else sensor1
  { s1 with sensor_health := setEntry s1.sensor_health parameter sensor2 }

/-- Per-field body of the loop in `read_serial_data`
(datalogger.py lines 346-370): coerce, classify the `-99.50` sentinel,
update health, and update statistics only for non-error values.
`pv` is the outcome of `float(value_str)` (`none` = `ValueError`). -/
def processField (s : SessionState) (key : String) (pv : Option ℚ)
    (now : Nat) : SessionState :=
  match pv with
  | some value =>
      let is_error : Bool := decide (value = errorSentinel)
      let s1 := update_sensor_health s key value is_error now
      if is_error then s1
      else
        { s1 with
          stats := setEntry s1.stats key
            (calculate_statistics ((getEntry s1.stats key).getD {}) value) }
  | none => update_sensor_health s key 0 true now

/-- One accepted line in `read_serial_data`: `total_readings` is bumped
once per line, then each decoded field is processed in order. -/
def read_serial_line (s : SessionState) (fields : List (String × Option ℚ))
    (now : Nat) : SessionState :=
  fields.foldl (fun st f => processField st f.1 f.2 now)
    { s with total_readings := s.total_readings + 1 }

/-- The parameters whose health entries are pre-seeded in `__init__`
(datalogger.py lines 123-128). -/
def initParams : List String :=
  ["S", "S2", "D", "T", "H", "P", "U", "V", "W"]

/-- Session state right after `__init__`. -/
def initState : SessionState :=
  { sensor_health := initParams.map (fun p => (p, {})) }

/-- A whole session: a list of (tick instant, decoded fields) lines. -/
def processSession (lines : List (Nat × List (String × Option ℚ))) :
    SessionState :=
  lines.foldl (fun s l => read_serial_line s l.2 l.1) initState

/-- All stored error rates of a session state are nonnegative. -/
def ratesNonneg (s : SessionState) : Prop :=
  ∀ k h, getEntry s.sensor_health k = some h → 0 ≤ h.error_rate

/-! ## Checkpoint schedule of the main loop (`run`, datalogger.py
lines 849-877, and `signal_handler`, lines 225-229)

A tick is `true` when `read_serial_data` returned a data point.  The model
records the value of `point_count` at each `save_final_statistics` call. -/

structure RunState where
  point_count : Nat := 0
  checkpoints : List Nat := []
deriving DecidableEq

/-- One iteration of the `while self.running` loop: on an accepted point,
increment `point_count` and checkpoint when it hits a multiple of 100. -/
def runTick (s : RunState) (arrived : Bool) : RunState :=
  if arrived then
    let pc := s.point_count + 1
    { point_count := pc,
      checkpoints :=
        if pc % 100 = 0 then s.checkpoints ++ [pc] else s.checkpoints }
  else s

/-- The whole loop over a schedule of ticks. -/
def runLoop (ticks : List Bool) : RunState :=
  ticks.foldl runTick {}

/-- `signal_handler`: one more `save_final_statistics` at shutdown. -/
def signalShutdown (s : RunState) : RunState :=
  { s with checkpoints := s.checkpoints ++ [s.point_count] }

/-! ## Archived-csv sentinel rewrite (`parse_csv_log`, DataVis.py
lines 96-102)

A wind-speed column is a list of cells; `none` is the missing-value
marker (`pd.NA` / failed numeric coercion).  The source first executes
`df.loc[df[col] == -99.50, col] = pd.NA` and only then computes the count
`(df[col] == -99.50).sum()` printed in the diagnostic. -/

/-- The rewrite `df.loc[df[col] == -99.50, col] = pd.NA` on one column. -/
def filterWindSpeedSentinels (col : List (Option ℚ)) : List (Option ℚ) :=
  col.map (fun c => if c = some errorSentinel then none else c)

/-- The count the source actually prints: sentinel cells counted after
the rewrite has already replaced them. -/
def reportedFilteredCount (col : List (Option ℚ)) : Nat :=
  ((filterWindSpeedSentinels col).filter
    (fun c => c = some errorSentinel)).length

/-- The number of cells the rewrite actually changed. -/
def rewrittenCellCount (col : List (Option ℚ)) : Nat :=
  (col.filter (fun c => c = some errorSentinel)).length

/-! ## Helper lemmas -/

theorem getEntry_setEntry_self {α : Type} (d : List (String × α)) (k : String)
    (v : α) : getEntry (setEntry d k v) k = some v := by
  induction d with
  | nil => simp [getEntry, setEntry]
  | cons p rest ih =>
      by_cases h : p.1 = k
      · simp [setEntry, h, getEntry]
      · simp [setEntry, h, getEntry, ih]

theorem getEntry_setEntry_ne {α : Type} (d : List (String × α)) (k k' : String)
    (v : α) (h : k ≠ k') :
    getEntry (setEntry d k v) k' = getEntry d k' := by
  induction d with
  | nil => simp [getEntry, setEntry, h]
  | cons p rest ih =>
      by_cases hp : p.1 = k
      · simp [setEntry, hp, getEntry, h]
      · simp [setEntry, hp, getEntry, ih]

theorem getEntry_mem {α : Type} (d : List (String × α)) (k : String) (h : α)
    (hget : getEntry d k = some h) : (k, h) ∈ d := by
  induction d with
  | nil => simp [getEntry] at hget
  | cons p rest ih =>
      by_cases hp : p.1 = k
      · rw [getEntry, if_pos hp] at hget
        obtain ⟨k1, v1⟩ := p
        simp only at hp hget
        injection hget with hv
        subst hp
        subst hv
        exact List.mem_cons_self _ _
      · rw [getEntry, if_neg hp] at hget
        exact List.mem_cons_of_mem _ (ih hget)

theorem ush_stats (s : SessionState) (p : String) (v : ℚ) (e : Bool)
    (n : Nat) : (update_sensor_health s p v e n).stats = s.stats := by
  cases e <;> simp [update_sensor_health]

theorem ush_total (s : SessionState) (p : String) (v : ℚ) (e : Bool)
    (n : Nat) :
    (update_sensor_health s p v e n).total_readings = s.total_readings := by
  cases e <;> simp [update_sensor_health]

theorem ush_error_count (s : SessionState) (p : String) (v : ℚ) (e : Bool)
    (n : Nat) :
    (update_sensor_health s p v e n).error_count =
      s.error_count + (if e then 1 else 0) := by
  cases e <;> simp [update_sensor_health]

theorem ush_health_self (s : SessionState) (p : String) (v : ℚ) (e : Bool)
    (n : Nat) :
    ∃ h, getEntry (update_sensor_health s p v e n).sensor_health p = some h ∧
      h.status =
        (if e then HealthStatus.Error
         else if startsWithT p = true ∧ (100000 : ℚ) < v then
           HealthStatus.Malfunction
         else if p = "P" ∧ v = offlineSentinel then HealthStatus.Offline
         else HealthStatus.Good) ∧
      (e = false → h.last_good_reading = some n) ∧
      (0 < s.total_readings →
        h.error_rate =
          (((s.error_count + if e then 1 else 0 : Nat) : ℚ) /
            (s.total_readings : ℚ)) * 100) ∧
      (s.total_readings = 0 →
        h.error_rate = ((getEntry s.sensor_health p).getD {}).error_rate) := by
  simp only [update_sensor_health]
  cases e <;>
    refine ⟨_, getEntry_setEntry_self _ _ _, ?_, ?_, ?_, ?_⟩ <;>
    split_ifs <;>
    simp_all <;>
    omega

theorem ush_health_other (s : SessionState) (p : String) (v : ℚ) (e : Bool)
    (n : Nat) (k : String) (hk : p ≠ k) :
    getEntry (update_sensor_health s p v e n).sensor_health k =
      getEntry s.sensor_health k := by
  simp only [update_sensor_health]
  cases e <;> simp [getEntry_setEntry_ne _ _ _ _ hk]

theorem processField_health_none (s : SessionState) (k : String) (now : Nat) :
    (processField s k none now).sensor_health =
      (update_sensor_health s k 0 true now).sensor_health := rfl

theorem processField_health_some (s : SessionState) (k : String) (v : ℚ)
    (now : Nat) :
    (processField s k (some v) now).sensor_health =
      SessionState.sensor_health
        (update_sensor_health s k v (decide (v = errorSentinel)) now) := by
  simp only [processField]
  by_cases hv : v = errorSentinel <;> simp [hv]

theorem processField_stats_some (s : SessionState) (k : String) (v : ℚ)
    (now : Nat) (hv : v ≠ errorSentinel) :
    (processField s k (some v) now).stats =
      setEntry s.stats k
        (calculate_statistics ((getEntry s.stats k).getD {}) v) := by
  simp only [processField,
    show decide (v = errorSentinel) = false by simp [hv]]
  simp [ush_stats]

theorem processField_error_count (s : SessionState) (k : String)
    (pv : Option ℚ) (now : Nat) :
    (processField s k pv now).error_count =
      s.error_count +
        (match pv with
         | none => 1
         | some v => if v = errorSentinel then 1 else 0) := by
  rcases pv with - | v
  · simp [processField, ush_error_count]
  · by_cases hv : v = errorSentinel <;>
      simp [processField, ush_error_count, hv]

theorem ush_ratesNonneg (s : SessionState) (p : String) (v : ℚ) (e : Bool)
    (n : Nat) (hs : ratesNonneg s) :
    ratesNonneg (update_sensor_health s p v e n) := by
  intro k h hget
  by_cases hk : p = k
  · subst hk
    obtain ⟨h', hget', -, -, hrate, hrate0⟩ := ush_health_self s p v e n
    rw [hget'] at hget
    injection hget with hh
    subst hh
    rcases Nat.eq_zero_or_pos s.total_readings with h0 | hpos
    · rw [hrate0 h0]
      cases hEntry : getEntry s.sensor_health p with
      | none => simp [hEntry]
      | some hOld => simpa [hEntry] using hs p hOld hEntry
    · rw [hrate hpos]
      positivity
  · rw [ush_health_other s p v e n k hk] at hget
    exact hs k h hget

theorem processField_ratesNonneg (s : SessionState) (k : String)
    (pv : Option ℚ) (now : Nat) (hs : ratesNonneg s) :
    ratesNonneg (processField s k pv now) := by
  intro k' h hget
  rcases pv with - | v
  · rw [processField_health_none] at hget
    exact ush_ratesNonneg s k 0 true now hs k' h hget
  · rw [processField_health_some] at hget
    exact ush_ratesNonneg s k v _ now hs k' h hget

theorem foldl_fields_ratesNonneg (fields : List (String × Option ℚ))
    (now : Nat) :
    ∀ s : SessionState, ratesNonneg s →
      ratesNonneg
        (fields.foldl (fun st f => processField st f.1 f.2 now) s) := by
  induction fields with
  | nil => exact fun _ hs => hs
  | cons f fs ih =>
      exact fun s hs => ih _ (processField_ratesNonneg s f.1 f.2 now hs)

theorem read_serial_line_ratesNonneg (s : SessionState)
    (fields : List (String × Option ℚ)) (now : Nat) (hs : ratesNonneg s) :
    ratesNonneg (read_serial_line s fields now) :=
  foldl_fields_ratesNonneg fields now _ (fun k h hget => hs k h hget)

theorem initState_ratesNonneg : ratesNonneg initState := by
  intro k h hget
  have hmem := getEntry_mem _ _ _ hget
  simp only [initState, List.mem_map] at hmem
  obtain ⟨a, -, heq⟩ := hmem
  cases heq
  exact le_refl _

theorem foldl_lines_ratesNonneg
    (lines : List (Nat × List (String × Option ℚ))) :
    ∀ s : SessionState, ratesNonneg s →
      ratesNonneg
        (lines.foldl (fun st l => read_serial_line st l.2 l.1) s) := by
  induction lines with
  | nil => exact fun _ hs => hs
  | cons l ls ih =>
      exact fun s hs => ih _ (read_serial_line_ratesNonneg s l.2 l.1 hs)

/-! ## Claim theorems -/

/-- C1 (amended): for a decoded field of an accepted line,
`calculate_statistics` is invoked exactly when the value string parses as
a number and the parsed value is not -99.50; unparseable values and -99.50
leave the parameter's statistics untouched.  The pressure sentinel -99.70
is NOT filtered from statistics (see the counterexample). -/
theorem C1_amended_stats_update_condition (s : SessionState) (k : String)
    (pv : Option ℚ) (now : Nat) :
    (pv = none → (processField s k pv now).stats = s.stats) ∧
    (pv = some errorSentinel → (processField s k pv now).stats = s.stats) ∧
    (∀ v, pv = some v → v ≠ errorSentinel →
      getEntry (SessionState.stats (processField s k pv now)) k =
        some (calculate_statistics ((getEntry s.stats k).getD {}) v)) := by
  refine ⟨?_, ?_, ?_⟩
  · rintro rfl
    simp [processField, ush_stats]
  · rintro rfl
    simp [processField, ush_stats]
  · rintro v rfl hv
    rw [show SessionState.stats (processField s k (some v) now) =
          setEntry s.stats k
            (calculate_statistics ((getEntry s.stats k).getD {}) v) from
        processField_stats_some s k v now hv]
    exact getEntry_setEntry_self _ _ _

/-- C1 witness: a parsed non-sentinel value (5 for parameter S) does
invoke the statistics update. -/
theorem C1_witness :
    getEntry (SessionState.stats (processField initState "S" (some 5) 0))
      "S" =
      some (calculate_statistics ((getEntry initState.stats "S").getD {}) 5)
    :=
  (C1_amended_stats_update_condition initState "S" (some 5) 0).2.2 5 rfl
    (by with_unfolding_all decide)

/-- C1 counterexample: the claim says -99.70 is a recognized sentinel
filtered from statistics, but a "P -99.70" field creates a statistics
entry for P with count 1 and -99.70 in the windowed FIFO. -/
theorem C1_counterexample :
    getEntry initState.stats "P" = none ∧
    Option.map Statistics.count
      (getEntry (SessionState.stats
        (read_serial_line initState [("P", some offlineSentinel)] 0)) "P") =
      some 1 ∧
    Option.map Statistics.values
      (getEntry (SessionState.stats
        (read_serial_line initState [("P", some offlineSentinel)] 0)) "P") =
      some [offlineSentinel] := by
  refine ⟨rfl, ?_, ?_⟩ <;> with_unfolding_all decide

/-- C3 (amended): after a health update of parameter k, the stored
error_rate of k's entry equals 100 × session error count / session total
readings at that instant; entries of parameters not being updated are not
recomputed, so the stored ratios can differ between parameters (see the
counterexample). -/
theorem C3_amended_error_rate_update (s : SessionState) (k : String)
    (pv : Option ℚ) (now : Nat) (htot : 0 < s.total_readings) :
    ∃ h,
      getEntry (SessionState.sensor_health (processField s k pv now)) k =
        some h ∧
      h.error_rate =
        100 * ((SessionState.error_count (processField s k pv now) : ℚ) /
          (s.total_readings : ℚ)) := by
  rcases pv with - | v
  · obtain ⟨h, hget, -, -, hrate, -⟩ := ush_health_self s k 0 true now
    refine ⟨h, ?_, ?_⟩
    · rw [processField_health_none]
      exact hget
    · rw [hrate htot, processField_error_count]
      simp only [eq_self_iff_true, if_true]
      push_cast
      ring
  · by_cases hv : v = errorSentinel
    · subst hv
      obtain ⟨h, hget, -, -, hrate, -⟩ :=
        ush_health_self s k errorSentinel true now
      refine ⟨h, ?_, ?_⟩
      · rw [processField_health_some,
          show decide (errorSentinel = errorSentinel) = true by simp]
        exact hget
      · rw [hrate htot, processField_error_count]
        simp only [eq_self_iff_true, if_true, if_pos rfl]
        push_cast
        ring
    · obtain ⟨h, hget, -, -, hrate, -⟩ := ush_health_self s k v false now
      refine ⟨h, ?_, ?_⟩
      · rw [processField_health_some,
          show decide (v = errorSentinel) = false by simp [hv]]
        exact hget
      · rw [hrate htot, processField_error_count]
        simp only [if_neg hv]
        push_cast
        ring

/-- C3 witness: one unparseable reading for S with one total reading
yields stored error rate 100 × 1 / 1 = 100 for S. -/
theorem C3_witness :
    Option.map SensorHealth.error_rate
      (getEntry (SessionState.sensor_health
        (processField { initState with total_readings := 1 } "S" none 0))
        "S") = some 100 := by
  obtain ⟨h, hget, hrate⟩ :=
    C3_amended_error_rate_update { initState with total_readings := 1 }
      "S" none 0 (by decide)
  rw [hget]
  simp only [Option.map_some']
  rw [hrate, processField_error_count]
  norm_num [initState]

/-- C3 counterexample: the ratio is not identical for every tracked
parameter at every point: after an error reading for S (rate 100) and a
good reading for T (rate 50), S still stores 100 while T stores 50. -/
theorem C3_counterexample :
    Option.map SensorHealth.error_rate
      (getEntry (SessionState.sensor_health (processSession
        [(0, [("S", some errorSentinel)]), (1, [("T", some 20)])])) "S") =
      some 100 ∧
    Option.map SensorHealth.error_rate
      (getEntry (SessionState.sensor_health (processSession
        [(0, [("S", some errorSentinel)]), (1, [("T", some 20)])])) "T") =
      some 50 ∧
    (100 : ℚ) ≠ 50 := by
  refine ⟨?_, ?_, by norm_num⟩ <;> with_unfolding_all decide

/-- C4 (amended): every stored error_rate is nonnegative at every point of
a session, but it is not bounded by 100: errors are counted per decoded
field while total readings are counted per line, so a single line with
several error fields pushes the ratio above 100 (see the counterexample).
-/
theorem C4_amended_error_rate_nonneg
    (lines : List (Nat × List (String × Option ℚ))) (k : String)
    (h : SensorHealth)
    (hget : getEntry (SessionState.sensor_health (processSession lines)) k =
      some h) :
    0 ≤ h.error_rate :=
  foldl_lines_ratesNonneg lines initState initState_ratesNonneg k h hget

/-- C4 witness: the T entry after a double-error line is the concrete
record with rate 200, and the amended bound holds for it. -/
theorem C4_witness :
    (0 : ℚ) ≤ SensorHealth.error_rate
      { status := HealthStatus.Error, error_rate := 200,
        last_good_reading := none } :=
  C4_amended_error_rate_nonneg
    [(0, [("S", some errorSentinel), ("T", some errorSentinel)])] "T"
    { status := HealthStatus.Error, error_rate := 200,
      last_good_reading := none }
    (by with_unfolding_all decide)

theorem update_csv_columns_cons (cols : List String) (k : String)
    (ks : List String) :
    update_csv_columns cols (k :: ks) =
      update_csv_columns (if k ∈ cols then cols else cols ++ [k]) ks := by
  simp [update_csv_columns]

theorem update_csv_columns_suffix (keys : List String) :
    ∀ cols, ∃ t, update_csv_columns cols keys = cols ++ t := by
  induction keys with
  | nil => exact fun cols => ⟨[], by simp [update_csv_columns]⟩
  | cons k ks ih =>
      intro cols
      by_cases hk : k ∈ cols
      · obtain ⟨t, ht⟩ := ih cols
        exact ⟨t, by rw [update_csv_columns_cons, if_pos hk, ht]⟩
      · obtain ⟨t, ht⟩ := ih (cols ++ [k])
        refine ⟨[k] ++ t, ?_⟩
        rw [update_csv_columns_cons, if_neg hk, ht, List.append_assoc]

theorem update_csv_columns_mem_keys (keys : List String) :
    ∀ cols k, k ∈ keys → k ∈ update_csv_columns cols keys := by
  induction keys with
  | nil => intro cols k hk; cases hk
  | cons k' ks ih =>
      intro cols k hk
      rw [update_csv_columns_cons]
      rcases List.mem_cons.mp hk with rfl | hks
      · have hbase : k ∈ (if k ∈ cols then cols else cols ++ [k]) := by
          by_cases h : k ∈ cols <;> simp [h]
        obtain ⟨t, ht⟩ :=
          update_csv_columns_suffix ks (if k ∈ cols then cols else cols ++ [k])
        rw [ht]
        exact List.mem_append_left _ hbase
      · exact ih _ k hks

theorem runTick_false (s : RunState) : runTick s false = s := rfl

theorem range1_concat (n : Nat) :
    List.range' 1 (n + 1) = List.range' 1 n ++ [n + 1] := by
  simpa [Nat.add_comm] using @List.range'_concat 1 1 n

theorem runTick_true_inv (s : RunState)
    (hs : s.checkpoints =
      (List.range' 1 s.point_count).filter (fun m => m % 100 = 0)) :
    (runTick s true).point_count = s.point_count + 1 ∧
    (runTick s true).checkpoints =
      (List.range' 1 (s.point_count + 1)).filter (fun m => m % 100 = 0) := by
  constructor
  · rfl
  · show (if (s.point_count + 1) % 100 = 0 then
        s.checkpoints ++ [s.point_count + 1] else s.checkpoints) = _
    rw [range1_concat, List.filter_append, ← hs]
    by_cases h : (s.point_count + 1) % 100 = 0 <;> simp [h]

theorem runLoop_inv (ticks : List Bool) :
    ∀ s : RunState,
      s.checkpoints =
        (List.range' 1 s.point_count).filter (fun m => m % 100 = 0) →
      (ticks.foldl runTick s).point_count = s.point_count + ticks.count true ∧
      (ticks.foldl runTick s).checkpoints =
        (List.range' 1 (ticks.foldl runTick s).point_count).filter
          (fun m => m % 100 = 0) := by
  induction ticks with
  | nil =>
      intro s hs
      refine ⟨by simp, by simpa using hs⟩
  | cons b bs ih =>
      intro s hs
      cases b
      · have h2 := ih s hs
        rw [List.foldl_cons, runTick_false]
        refine ⟨?_, h2.2⟩
        rw [h2.1]
        simp [List.count_cons]
      · have h1 := runTick_true_inv s hs
        have hinv := h1.2
        rw [← h1.1] at hinv
        have h2 := ih (runTick s true) hinv
        rw [List.foldl_cons]
        refine ⟨?_, h2.2⟩
        rw [h2.1, h1.1]
        simp [List.count_cons]
        omega

/-- C4 counterexample: one line carrying -99.50 for both S and T gives
T a stored error rate of 200, outside [0, 100]. -/
theorem C4_counterexample :
    Option.map SensorHealth.error_rate
      (getEntry (SessionState.sensor_health (processSession
        [(0, [("S", some errorSentinel), ("T", some errorSentinel)])]))
        "T") = some 200 ∧
    ¬((200 : ℚ) ≤ 100) :=
  ⟨by with_unfolding_all decide, by norm_num⟩

/-- C2: on every health update with a reading, a value that fails numeric
coercion or equals -99.50 yields `Error`; otherwise a temperature-prefixed
parameter with value above 100000 yields `Malfunction`; otherwise
parameter "P" with value -99.70 yields `Offline`; otherwise the status is
`Good` and `last_good_reading` is set to the current instant.  In
particular P at -99.70 is Offline, T at 150000 is Malfunction, any
parameter at -99.50 is Error, and H at 45.2 is Good. -/
theorem C2_sensor_health_classification (s : SessionState) (k : String)
    (pv : Option ℚ) (now : Nat) :
    (Option.map SensorHealth.status
        (getEntry (processField s k pv now).sensor_health k) =
      some (match pv with
        | none => HealthStatus.Error
        | some v =>
            if v = errorSentinel then HealthStatus.Error
            else if startsWithT k = true ∧ (100000 : ℚ) < v then
              HealthStatus.Malfunction
            else if k = "P" ∧ v = offlineSentinel then HealthStatus.Offline
            else HealthStatus.Good)) ∧
    (∀ v, pv = some v → v ≠ errorSentinel →
      Option.map SensorHealth.last_good_reading
        (getEntry (processField s k pv now).sensor_health k) =
        some (some now)) ∧
    Option.map SensorHealth.status
      (getEntry (SessionState.sensor_health
        (processField initState "P" (some offlineSentinel) 0)) "P") =
      some HealthStatus.Offline ∧
    Option.map SensorHealth.status
      (getEntry (SessionState.sensor_health
        (processField initState "T" (some 150000) 0)) "T") =
      some HealthStatus.Malfunction ∧
    Option.map SensorHealth.status
      (getEntry (SessionState.sensor_health
        (processField initState "H" (some errorSentinel) 0)) "H") =
      some HealthStatus.Error ∧
    Option.map SensorHealth.status
      (getEntry (SessionState.sensor_health
        (processField initState "H" (some (452 / 10)) 0)) "H") =
      some HealthStatus.Good := by
  refine ⟨?_, ?_, by with_unfolding_all decide, by with_unfolding_all decide,
    by with_unfolding_all decide, by with_unfolding_all decide⟩
  · rcases pv with - | v
    · rw [processField_health_none]
      obtain ⟨h, hget, hstat, -, -, -⟩ := ush_health_self s k 0 true now
      rw [hget]
      simp [hstat]
    · rw [processField_health_some]
      by_cases hv : v = errorSentinel
      · subst hv
        rw [show decide (errorSentinel = errorSentinel) = true by simp]
        obtain ⟨h, hget, hstat, -, -, -⟩ :=
          ush_health_self s k errorSentinel true now
        rw [hget]
        simp [hstat]
      · rw [show decide (v = errorSentinel) = false by simp [hv]]
        obtain ⟨h, hget, hstat, -, -, -⟩ := ush_health_self s k v false now
        rw [hget]
        simp [hstat, hv]
  · intro v heq hv
    subst heq
    rw [processField_health_some,
      show decide (v = errorSentinel) = false by simp [hv]]
    obtain ⟨h, hget, -, hlast, -, -⟩ := ush_health_self s k v false now
    rw [hget]
    simp [hlast rfl]

/-- C2 witness: humidity reading 45.2 at instant 7 yields a Good-path
health entry whose last good reading is instant 7. -/
theorem C2_witness :
    Option.map SensorHealth.last_good_reading
      (getEntry (SessionState.sensor_health
        (processField initState "H" (some (452 / 10)) 7)) "H") =
      some (some 7) :=
  (C2_sensor_health_classification initState "H" (some (452 / 10)) 7).2.1
    (452 / 10) rfl (by with_unfolding_all decide)

/-- C5: a -99.50 reading for any parameter leaves that parameter's
statistics (windowed FIFO and cumulative min/max included) untouched and
increments the session-wide error counter. -/
theorem C5_sentinel_excluded_from_stats (s : SessionState) (k : String)
    (now : Nat) :
    (processField s k (some errorSentinel) now).stats = s.stats ∧
    (processField s k (some errorSentinel) now).error_count =
      s.error_count + 1 := by
  constructor
  · simp [processField, ush_stats]
  · simp [processField, ush_error_count]

/-- C9: `parse_csv_log` rewrites -99.50 cells of wind-speed columns to the
missing marker, but the diagnostic count it prints is computed after the
rewrite, so the reported count is always 0 regardless of how many cells
were rewritten (here: one cell rewritten, zero reported). -/
theorem C9_reported_count_always_zero :
    (∀ col : List (Option ℚ), reportedFilteredCount col = 0) ∧
    filterWindSpeedSentinels [some errorSentinel, some 5] = [none, some 5] ∧
    rewrittenCellCount [some errorSentinel, some 5] = 1 ∧
    reportedFilteredCount [some errorSentinel, some 5] = 0 := by
  refine ⟨?_, by with_unfolding_all decide, by with_unfolding_all decide,
    by with_unfolding_all decide⟩
  intro col
  have hnone : ∀ c : Option ℚ,
      ((if c = some errorSentinel then none else c) = some errorSentinel) =
        False := by
    intro c
    by_cases h : c = some errorSentinel <;> simp [h]
  simp [reportedFilteredCount, filterWindSpeedSentinels, List.filter_map,
    Function.comp_def, hnone]

/-- C7: during a session a statistics checkpoint is written exactly when
the accepted-point counter reaches a multiple of 100, plus once more at
shutdown; ticks with no arriving line change nothing and never trigger a
checkpoint. -/
theorem C7_checkpoint_schedule (ticks : List Bool) :
    (runLoop ticks).point_count = ticks.count true ∧
    (runLoop ticks).checkpoints =
      (List.range' 1 (runLoop ticks).point_count).filter
        (fun m => m % 100 = 0) ∧
    (∀ s : RunState, runTick s false = s) ∧
    (signalShutdown (runLoop ticks)).checkpoints =
      (List.range' 1 (runLoop ticks).point_count).filter
        (fun m => m % 100 = 0) ++ [(runLoop ticks).point_count] := by
  have h := runLoop_inv ticks {} rfl
  refine ⟨?_, ?_, fun s => runTick_false s, ?_⟩
  · show (ticks.foldl runTick {}).point_count = ticks.count true
    rw [h.1]
    simp
  · exact h.2
  · show (ticks.foldl runTick {}).checkpoints ++
        [(ticks.foldl runTick {}).point_count] = _
    rw [h.2]
    rfl

/-- C8: the CSV schema is append-only and order-preserving: it begins at
["timestamp"], each new observed key is appended in discovery order,
existing entries are never removed or reordered (the old column list is
always a prefix of the new one), and observing {S,D,T} then {S,D,T,H,P}
yields [timestamp,S,D,T,H,P]. -/
theorem C8_schema_append_only (cols keys : List String) :
    (∃ t, update_csv_columns cols keys = cols ++ t) ∧
    (∀ k, k ∈ keys → k ∈ update_csv_columns cols keys) ∧
    update_csv_columns (update_csv_columns ["timestamp"] ["S", "D", "T"])
      ["S", "D", "T", "H", "P"] = ["timestamp", "S", "D", "T", "H", "P"] :=
  ⟨update_csv_columns_suffix keys cols,
   fun k hk => update_csv_columns_mem_keys keys cols k hk,
   by decide⟩

/-- C8 witness: a freshly observed key H is present in the updated
schema. -/
theorem C8_witness : "H" ∈ update_csv_columns ["timestamp"] ["S", "H"] :=
  (C8_schema_append_only ["timestamp"] ["S", "H"]).2.1 "H" (by decide)

theorem pairUp_take_even (n : Nat) :
    ∀ ts : List String, ts.length = 2 * n + 1 →
      pairUp ts = pairUp (ts.take (2 * n)) := by
  induction n with
  | zero =>
      intro ts h
      rcases ts with - | ⟨x, ts'⟩
      · simp at h
      rcases ts' with - | ⟨y, r⟩
      · rfl
      · simp at h
  | succ n ih =>
      intro ts h
      rcases ts with - | ⟨k, ts'⟩
      · simp at h
      rcases ts' with - | ⟨v, rest⟩
      · simp at h
      · have hr : rest.length = 2 * n + 1 := by
          simp at h
          omega
        have htake : (k :: v :: rest).take (2 * (n + 1)) =
            k :: v :: rest.take (2 * n) := by
          rw [show 2 * (n + 1) = 2 * n + 1 + 1 by ring]
          simp [List.take_succ_cons]
        rw [htake,
          show pairUp (k :: v :: rest) = (k, v) :: pairUp rest from rfl,
          show pairUp (k :: v :: rest.take (2 * n)) =
            (k, v) :: pairUp (rest.take (2 * n)) from rfl,
          ih rest hr]

theorem pairUp_even_get (n : Nat) :
    ∀ ts : List String, ts.length = 2 * n →
      (pairUp ts).length = n ∧
      ∀ i, i < n → (pairUp ts).getD i ("", "") =
        (ts.getD (2 * i) "", ts.getD (2 * i + 1) "") := by
  induction n with
  | zero =>
      intro ts h
      have hnil : ts = [] := List.eq_nil_of_length_eq_zero (by omega)
      subst hnil
      exact ⟨rfl, fun i hi => absurd hi (Nat.not_lt_zero i)⟩
  | succ n ih =>
      intro ts h
      rcases ts with - | ⟨k, ts'⟩
      · simp at h
      rcases ts' with - | ⟨v, rest⟩
      · simp at h
        omega
      have hr : rest.length = 2 * n := by
        simp at h
        omega
      obtain ⟨hlen, hget⟩ := ih rest hr
      rw [show pairUp (k :: v :: rest) = (k, v) :: pairUp rest from rfl]
      refine ⟨by simp [hlen], ?_⟩
      intro i hi
      cases i with
      | zero => simp
      | succ i =>
          have hi' : i < n := by omega
          rw [List.getD_cons_succ, hget i hi',
            show 2 * (i + 1) = 2 * i + 1 + 1 by ring,
            show 2 * i + 1 + 1 + 1 = 2 * i + 1 + 1 + 1 by ring]
          simp only [List.getD_cons_succ]

/-- C10: a comma-free line whose whitespace token sequence has odd length
2n+1 is decoded by silently dropping the final token: the result is the
dict built from the n complete (key, value) pairs taken by position, with
the i-th pair being (token 2i, token 2i+1); no key without a value appears.
-/
theorem C10_odd_token_line (line : String) (n : Nat)
    (hc : (',' : Char) ∉ line.toList)
    (hlen : (pySplit line).length = 2 * n + 1) :
    parse_data_line line =
      dictOfPairs (pairUp ((pySplit line).take (2 * n))) ∧
    (pairUp ((pySplit line).take (2 * n))).length = n ∧
    (∀ i, i < n → (pairUp ((pySplit line).take (2 * n))).getD i ("", "") =
      ((pySplit line).getD (2 * i) "", (pySplit line).getD (2 * i + 1) ""))
    := by
  have htake : ((pySplit line).take (2 * n)).length = 2 * n := by
    rw [List.length_take]
    omega
  obtain ⟨hl, hg⟩ := pairUp_even_get n _ htake
  refine ⟨?_, hl, ?_⟩
  · rw [parse_data_line, if_neg hc, pairUp_take_even n _ hlen]
  · intro i hi
    have t1 : ((pySplit line).take (2 * n)).getD (2 * i) "" =
        (pySplit line).getD (2 * i) "" := by
      rw [List.getD_eq_getElem?_getD, List.getD_eq_getElem?_getD,
        List.getElem?_take_of_lt (show 2 * i < 2 * n by omega)]
    have t2 : ((pySplit line).take (2 * n)).getD (2 * i + 1) "" =
        (pySplit line).getD (2 * i + 1) "" := by
      rw [List.getD_eq_getElem?_getD, List.getD_eq_getElem?_getD,
        List.getElem?_take_of_lt (show 2 * i + 1 < 2 * n by omega)]
    rw [hg i hi, t1, t2]

/-- C10 witness: the 5-token line "S 12.34 D 180 T" decodes to the dict of
its first two positional pairs, dropping the trailing "T". -/
theorem C10_witness :
    parse_data_line "S 12.34 D 180 T" =
      dictOfPairs (pairUp ((pySplit "S 12.34 D 180 T").take (2 * 2))) ∧
    (pairUp ((pySplit "S 12.34 D 180 T").take (2 * 2))).length = 2 :=
  ⟨(C10_odd_token_line "S 12.34 D 180 T" 2 (by decide) (by decide)).1,
   (C10_odd_token_line "S 12.34 D 180 T" 2 (by decide) (by decide)).2.1⟩

theorem calc_count (st : Statistics) (v : ℚ) :
    (calculate_statistics st v).count = st.count + 1 := by
  simp only [calculate_statistics]
  split <;> rfl

theorem calc_values (st : Statistics) (v : ℚ) :
    (calculate_statistics st v).values = pushWindow st.values v := by
  simp only [calculate_statistics]
  split <;> rfl

theorem calc_first (v : ℚ) :
    (calculate_statistics {} v).min_val = v ∧
    (calculate_statistics {} v).max_val = v ∧
    (calculate_statistics {} v).mean_val = v ∧
    (calculate_statistics {} v).std_dev_sq = 0 :=
  ⟨rfl, rfl, rfl, rfl⟩

theorem calc_step (st : Statistics) (v : ℚ) (h : st.count ≠ 0) :
    (calculate_statistics st v).min_val = min st.min_val v ∧
    (calculate_statistics st v).max_val = max st.max_val v ∧
    (calculate_statistics st v).mean_val =
      (pushWindow st.values v).sum / ((pushWindow st.values v).length : ℚ) ∧
    (calculate_statistics st v).std_dev_sq =
      (if 1 < (pushWindow st.values v).length then
        ((pushWindow st.values v).map
          (fun x => (x - (pushWindow st.values v).sum /
            ((pushWindow st.values v).length : ℚ)) ^ 2)).sum /
          ((pushWindow st.values v).length : ℚ)
       else st.std_dev_sq) := by
  simp only [calculate_statistics]
  rw [if_neg (by omega)]
  exact ⟨rfl, rfl, rfl, rfl⟩

theorem statsFold_concat (l : List ℚ) (v : ℚ) :
    statsFold (l ++ [v]) = calculate_statistics (statsFold l) v := by
  simp [statsFold, List.foldl_append]

theorem statsFold_count (l : List ℚ) : (statsFold l).count = l.length := by
  induction l using List.reverseRecOn with
  | nil => rfl
  | append_singleton xs v ih =>
      rw [statsFold_concat, calc_count, ih]
      simp

theorem length_takeLast (n : Nat) (l : List ℚ) :
    (takeLast n l).length = min n l.length := by
  simp only [takeLast, List.length_drop]
  omega

theorem pushWindow_takeLast (l : List ℚ) (v : ℚ) :
    pushWindow (takeLast 100 l) v = takeLast 100 (l ++ [v]) := by
  by_cases h : l.length < 100
  · have h1 : takeLast 100 l = l := by
      simp [takeLast, Nat.sub_eq_zero_of_le (le_of_lt h)]
    rw [h1, pushWindow, if_pos (by simpa using h)]
    simp only [takeLast, List.length_append, List.length_singleton]
    rw [Nat.sub_eq_zero_of_le (by omega), List.drop_zero]
  · push_neg at h
    have hlen : (takeLast 100 l).length = 100 := by
      rw [length_takeLast]
      omega
    rw [pushWindow, if_neg (by rw [hlen]; omega)]
    simp only [takeLast, List.length_append, List.length_singleton]
    rw [List.tail_drop, List.drop_append_of_le_length (by omega)]
    congr 2
    omega

theorem statsFold_values (l : List ℚ) :
    (statsFold l).values = takeLast 100 l := by
  induction l using List.reverseRecOn with
  | nil => rfl
  | append_singleton xs v ih =>
      rw [statsFold_concat, calc_values, ih, pushWindow_takeLast]

theorem statsFold_min_aux : ∀ l : List ℚ, l ≠ [] →
    (statsFold l).min_val ∈ l ∧ ∀ x ∈ l, (statsFold l).min_val ≤ x := by
  intro l
  induction l using List.reverseRecOn with
  | nil => intro h; exact absurd rfl h
  | append_singleton xs v ih =>
      intro _
      rw [statsFold_concat]
      rcases eq_or_ne xs [] with rfl | hxs
      · refine ⟨?_, ?_⟩
        · rw [show (calculate_statistics (statsFold []) v).min_val = v
            from rfl]
          simp
        · intro x hx
          rw [List.nil_append, List.mem_singleton] at hx
          rw [hx]
          exact le_of_eq rfl
      · have hcount : (statsFold xs).count ≠ 0 := by
          rw [statsFold_count]
          simpa using hxs
        obtain ⟨hmem, hbound⟩ := ih hxs
        obtain ⟨hmin, -, -, -⟩ := calc_step (statsFold xs) v hcount
        rw [hmin]
        refine ⟨?_, ?_⟩
        · rcases le_total (statsFold xs).min_val v with hle | hle
          · rw [min_eq_left hle]
            exact List.mem_append_left _ hmem
          · rw [min_eq_right hle]
            simp
        · intro x hx
          rcases List.mem_append.mp hx with hx | hx
          · exact le_trans (min_le_left _ _) (hbound x hx)
          · rw [List.mem_singleton] at hx
            subst hx
            exact min_le_right _ _

theorem statsFold_max_aux : ∀ l : List ℚ, l ≠ [] →
    (statsFold l).max_val ∈ l ∧ ∀ x ∈ l, x ≤ (statsFold l).max_val := by
  intro l
  induction l using List.reverseRecOn with
  | nil => intro h; exact absurd rfl h
  | append_singleton xs v ih =>
      intro _
      rw [statsFold_concat]
      rcases eq_or_ne xs [] with rfl | hxs
      · refine ⟨?_, ?_⟩
        · rw [show (calculate_statistics (statsFold []) v).max_val = v
            from rfl]
          simp
        · intro x hx
          rw [List.nil_append, List.mem_singleton] at hx
          rw [hx]
          exact le_of_eq rfl
      · have hcount : (statsFold xs).count ≠ 0 := by
          rw [statsFold_count]
          simpa using hxs
        obtain ⟨hmem, hbound⟩ := ih hxs
        obtain ⟨-, hmax, -, -⟩ := calc_step (statsFold xs) v hcount
        rw [hmax]
        refine ⟨?_, ?_⟩
        · rcases le_total (statsFold xs).max_val v with hle | hle
          · rw [max_eq_right hle]
            simp
          · rw [max_eq_left hle]
            exact List.mem_append_left _ hmem
        · intro x hx
          rcases List.mem_append.mp hx with hx | hx
          · exact le_trans (hbound x hx) (le_max_left _ _)
          · rw [List.mem_singleton] at hx
            subst hx
            exact le_max_right _ _

theorem statsFold_mean_std (l : List ℚ) (hne : l ≠ []) :
    (statsFold l).mean_val =
      (takeLast 100 l).sum / ((takeLast 100 l).length : ℚ) ∧
    (statsFold l).std_dev_sq = popVariance (takeLast 100 l) := by
  rcases List.eq_nil_or_concat l with rfl | ⟨xs, v, rfl⟩
  · exact absurd rfl hne
  rw [List.concat_eq_append]
  rcases eq_or_ne xs [] with rfl | hxs
  · have h1 : takeLast 100 ([] ++ [v]) = [v] := rfl
    rw [List.nil_append] at h1 ⊢
    rw [show statsFold [v] = calculate_statistics {} v from rfl, h1]
    obtain ⟨-, -, hmean, hstd⟩ := calc_first v
    refine ⟨?_, ?_⟩
    · rw [hmean]
      norm_num
    · rw [hstd, popVariance]
      norm_num
  · have hcount : (statsFold xs).count ≠ 0 := by
      rw [statsFold_count]
      simpa using hxs
    have hwin : pushWindow (statsFold xs).values v =
        takeLast 100 (xs ++ [v]) := by
      rw [statsFold_values, pushWindow_takeLast]
    have hlen2 : 1 < (takeLast 100 (xs ++ [v])).length := by
      rw [length_takeLast, List.length_append, List.length_singleton]
      have : 1 ≤ xs.length := by
        rcases Nat.eq_zero_or_pos xs.length with h0 | h1
        · exact absurd (List.eq_nil_of_length_eq_zero h0) hxs
        · exact h1
      omega
    obtain ⟨-, -, hmean, hstd⟩ := calc_step (statsFold xs) v hcount
    rw [statsFold_concat]
    refine ⟨?_, ?_⟩
    · rw [hmean, hwin]
    · rw [hstd, hwin, if_pos hlen2, popVariance]

/-- C6: feeding any nonempty sequence of accepted values to the statistics
update gives, after the last call: count = number of calls, the windowed
FIFO = the most recent at most 100 values (oldest evicted), cumulative min
and max = extrema of the whole sequence, windowed mean = arithmetic mean
of the FIFO contents, and windowed standard deviation = the population
standard deviation (dividing by count, not count − 1) of those same
contents. -/
theorem C6_statistics_correct (l : List ℚ) (hne : l ≠ []) :
    (statsFold l).count = l.length ∧
    (statsFold l).values = takeLast 100 l ∧
    ((statsFold l).min_val ∈ l ∧ ∀ x ∈ l, (statsFold l).min_val ≤ x) ∧
    ((statsFold l).max_val ∈ l ∧ ∀ x ∈ l, x ≤ (statsFold l).max_val) ∧
    (statsFold l).mean_val =
      (takeLast 100 l).sum / ((takeLast 100 l).length : ℚ) ∧
    (statsFold l).std_dev_sq = popVariance (takeLast 100 l) ∧
    Statistics.stdDev (statsFold l) =
      Real.sqrt ((popVariance (takeLast 100 l) : ℚ) : ℝ) := by
  obtain ⟨hm, hs⟩ := statsFold_mean_std l hne
  exact ⟨statsFold_count l, statsFold_values l, statsFold_min_aux l hne,
    statsFold_max_aux l hne, hm, hs, by rw [Statistics.stdDev, hs]⟩

/-- C6 witness: a concrete five-value feed has count 5 and keeps all five
values in the window. -/
theorem C6_witness :
    (statsFold [10, 12, 8, 15, 11]).count = [10, 12, 8, 15, 11].length ∧
    (statsFold [10, 12, 8, 15, 11]).values =
      takeLast 100 [10, 12, 8, 15, 11] :=
  ⟨(C6_statistics_correct [10, 12, 8, 15, 11] (by simp)).1,
   (C6_statistics_correct [10, 12, 8, 15, 11] (by simp)).2.1⟩

end Trisonica
